import Mathlib

/-!
Verification of the RBC statement parser's line-parsing engine.

The definitions below are a shallow embedding of the Python sources:
  - parsers/expense.py, parsers/nsf.py : the record types
  - parsers/common.py                  : the shared page scanner (Format A)
  - parsers/my_main_money.py           : the Format A line classifier
  - parsers/visa_avion_unlimited.py    : the Format B classifier and scanner
  - main.py (filter_visa_debit_corrections) : the duplicate/correction resolver

Machine conventions: currency amounts are modelled in cents (Nat);
calendar dates are a (year, month, day) record with an Int year; Python's
dynamically typed `date` field (None, a datetime.date, or a str) is the
inductive PyVal; regular expressions are translated to explicit character
scanners over ASCII text, matching the leftmost-match / greedy semantics of
the concrete patterns in the sources.
-/

/-- A calendar date as produced by datetime.strptime. -/
structure MDate where
  year : Int
  month : Nat
  day : Nat
deriving DecidableEq, Repr

/-- The dynamic value stored in a record's `date` field: Python None,
a datetime.date, or a string (the scanners assign the string `''`). -/
inductive PyVal where
  | vnone
  | vdate (d : MDate)
  | vstr (s : String)
deriving DecidableEq, Repr

/-- Python truthiness of the `date` field: None and `''` are falsy. -/
def PyVal.truthy : PyVal → Bool
  | .vnone => false
  | .vdate _ => true
  | .vstr s => !s.isEmpty

/-- Convert the parser's nullable current date to the value stored in a record. -/
def pyOfOpt : Option MDate → PyVal
  | Option.none => PyVal.vnone
  | some d => PyVal.vdate d

/-- parsers/expense.py : class Expense.  `amount` is in cents.  The `year`
field models the attribute backfilled dynamically by the page scanner
(common.py line 82); it does not exist until assigned, hence Option. -/
structure Expense where
  date : PyVal
  page : String := ""
  category : String := ""
  amount : Nat := 0
  line_number : Nat := 0
  line : String := ""
  visa_debit_id : Option String := Option.none
  reversal : Bool := false
  year : Option Int := Option.none
deriving DecidableEq, Repr

/-- parsers/nsf.py : class NSF. -/
structure NSF where
  date : PyVal
  page : String := ""
  category : String := ""
  amount : Nat := 0
  line_number : Nat := 0
  line : String := ""
  year : Option Int := Option.none
deriving DecidableEq, Repr

/-- The per-statement mutable scan state of parsers/common.py
(`current_date`, `current_year`). -/
structure PState where
  current_date : Option MDate
  current_year : Int
deriving DecidableEq, Repr

/-- One configured category entry: pattern ↦ (page, category, friendly name),
as flattened by main.py load_categories (a null friendly name is replaced by
the pattern before it reaches the parsers). -/
structure CatEntry where
  pattern : String
  page : String
  category : String
  friendly : String
deriving DecidableEq, Repr

/-! ### Character-level scanners for the regular expressions of the sources -/

/-- Longest run of leading ASCII digits, together with the remainder
(the greedy semantics of a leading regex token d+). -/
def takeDigits : List Char → List Char × List Char
  | [] => ([], [])
  | c :: cs =>
    if c.isDigit then
      match takeDigits cs with
      | (ds, r) => (c :: ds, r)
    else ([], c :: cs)

/-- Numeric value of a digit string. -/
def digitsToNat (ds : List Char) : Nat :=
  ds.foldl (fun n c => n * 10 + (c.toNat - '0'.toNat)) 0

/-- The month abbreviations of calendar.month_abbr (my_main_money.py line 12). -/
def monthAbbrevsA : List String :=
  ["Jan", "Feb", "Mar", "Apr", "May", "Jun", "Jul", "Aug", "Sep", "Oct", "Nov", "Dec"]

/-- The upper-cased month abbreviations (visa_avion_unlimited.py line 11). -/
def monthAbbrevsB : List String :=
  ["JAN", "FEB", "MAR", "APR", "MAY", "JUN", "JUL", "AUG", "SEP", "OCT", "NOV", "DEC"]

/-- First alternative (in list order) that is a leading segment of `cs`,
returned as a month number 1..12.  Models the regex alternation
(Jan|Feb|...|Dec) applied at a fixed position. -/
def matchMonth (abbrevs : List String) (cs : List Char) : Option Nat :=
  match abbrevs.findIdx? (fun a => a.toList.isPrefixOf cs) with
  | some i => some (i + 1)
  | Option.none => Option.none

/-- Format A date token: my_main_money.py date_regex, pattern
(caret)(d+) (Mon) used with re.match.  Returns the digit run and month. -/
def dateTokenA (line : String) : Option (List Char × Nat) :=
  match takeDigits line.toList with
  | ([], _) => Option.none
  | (ds, rest) =>
    match rest with
    | ' ' :: rest2 =>
      match matchMonth monthAbbrevsA rest2 with
      | some m => some (ds, m)
      | Option.none => Option.none
    | _ => Option.none

/-- Format B date token: visa_avion_unlimited.py date_regex, pattern
(caret)((MON) (d+)) used with re.search (the anchor makes search = match).
Returns the month and the digit run. -/
def dateTokenB (line : String) : Option (Nat × List Char) :=
  let cs := line.toList
  match matchMonth monthAbbrevsB cs with
  | some m =>
    match cs.drop 3 with
    | ' ' :: rest2 =>
      match takeDigits rest2 with
      | ([], _) => Option.none
      | (ds, _) => some (m, ds)
    | _ => Option.none
  | Option.none => Option.none

/-- Gregorian leap-year rule (as used by datetime). -/
def isLeap (y : Int) : Bool :=
  y % 4 == 0 && (y % 100 != 0 || y % 400 == 0)

/-- Days in a month, per the datetime module. -/
def daysInMonth (y : Int) (m : Nat) : Nat :=
  if m = 2 then (if isLeap y then 29 else 28)
  else if m = 4 ∨ m = 6 ∨ m = 9 ∨ m = 11 then 30 else 31

/-- datetime.strptime(f'{digits} {Mon} {year}', '%d %b %Y') applied to an
already-recognized month: succeeds iff the day field has at most two digits
(%d), the day is in range for the month, and the year prints as four digits
(%Y).  Failure models the ValueError raised by strptime. -/
def strptimeDM (ds : List Char) (m : Nat) (y : Int) : Option MDate :=
  let day := digitsToNat ds
  if ds.length ≤ 2 ∧ 1 ≤ day ∧ day ≤ daysInMonth y m ∧ 1000 ≤ y ∧ y ≤ 9999 then
    some ⟨y, m, day⟩
  else
    Option.none

/-- Greedy consumption of the regex body (d{1,3},?)+ at a fixed position:
a run of digits and commas that starts with a digit and never has two
adjacent commas.  The flag records whether a comma is currently allowed
(i.e. the previous character was a digit). -/
def bodyTake : List Char → Bool → List Char × List Char
  | [], _ => ([], [])
  | c :: cs, afterDigit =>
    if c.isDigit then
      match bodyTake cs true with
      | (b, r) => (c :: b, r)
    else if c = ',' && afterDigit then
      match bodyTake cs false with
      | (b, r) => (c :: b, r)
    else ([], c :: cs)

/-- The dollar pattern ((d{1,3},?)+(.d{2})) applied at a fixed position
(no trailing anchor): body, a dot, then two digits; anything may follow.
Returns the amount in cents after stripping commas (Decimal(x.replace(',',''))). -/
def dollarAt (cs : List Char) : Option Nat :=
  match bodyTake cs false with
  | ([], _) => Option.none
  | (b, r) =>
    match r with
    | '.' :: d1 :: d2 :: _ =>
      if d1.isDigit && d2.isDigit then
        some (digitsToNat (b.filter (fun c => c ≠ ',')) * 100 + digitsToNat [d1, d2])
      else Option.none
    | _ => Option.none

/-- Leftmost unanchored search for the Format A dollar pattern
(my_main_money.py dollar_regex.search). -/
def dollarSearch : List Char → Option Nat
  | [] => Option.none
  | c :: cs =>
    match dollarAt (c :: cs) with
    | some v => some v
    | Option.none => dollarSearch cs

/-- The Format B dollar pattern $((d{1,3},?)+(.d{2}))$ applied right after
a dollar sign: the match must extend to the end of the line. -/
def dollarAtEnd (cs : List Char) : Option Nat :=
  match bodyTake cs false with
  | ([], _) => Option.none
  | (b, r) =>
    match r with
    | ['.', d1, d2] =>
      if d1.isDigit && d2.isDigit then
        some (digitsToNat (b.filter (fun c => c ≠ ',')) * 100 + digitsToNat [d1, d2])
      else Option.none
    | _ => Option.none

/-- Leftmost search for a dollar sign whose suffix matches the Format B
dollar pattern to the end of the line (visa_avion_unlimited.py
dollar_regex.search). -/
def trailingDollarAux : List Char → Option Nat
  | [] => Option.none
  | c :: cs =>
    if c = '$' then
      match dollarAtEnd cs with
      | some v => some v
      | Option.none => trailingDollarAux cs
    else trailingDollarAux cs

/-- Trailing currency token of a line, if any (Format B). -/
def trailingDollar (line : String) : Option Nat :=
  trailingDollarAux line.toList

/-- The NSF pattern: Item returned NSF ((d{1,3},?)+(.d{2})) used with
re.match (anchored at the start of the line). -/
def nsfMatch (line : String) : Option Nat :=
  let lead := "Item returned NSF ".toList
  if lead.isPrefixOf line.toList then dollarAt (line.toList.drop lead.length)
  else Option.none

/-- The three virtual-debit subtypes, in the alternation order of
visa_debit_regex. -/
def modeStrings : List String := ["purchase", "correction", "refund"]

/-- The pattern Visa Debit (purchase|correction|refund) - (d+) applied at a
fixed position; returns the subtype and the correlation id (a digit string). -/
def visaDebitAt (cs : List Char) : Option (String × String) :=
  let lead := "Visa Debit ".toList
  if lead.isPrefixOf cs then
    let cs1 := cs.drop lead.length
    match modeStrings.find? (fun m0 => m0.toList.isPrefixOf cs1) with
    | some mode =>
      let cs2 := cs1.drop mode.length
      if " - ".toList.isPrefixOf cs2 then
        match takeDigits (cs2.drop 3) with
        | ([], _) => Option.none
        | (ds, _) => some (mode, String.mk ds)
      else Option.none
    | Option.none => Option.none
  else Option.none

/-- Leftmost search for the virtual-debit header pattern
(my_main_money.py visa_debit_regex.search on the previous line). -/
def visaDebitSearch : List Char → Option (String × String)
  | [] => Option.none
  | c :: cs =>
    match visaDebitAt (c :: cs) with
    | some r => some r
    | Option.none => visaDebitSearch cs

/-- Python's substring containment `pat in line` over characters
(empty pattern contained in everything). -/
def containsSub (p : List Char) : List Char → Bool
  | [] => p.isEmpty
  | c :: rest => p.isPrefixOf (c :: rest) || containsSub p rest

/-- First category whose pattern occurs in the line, in configured order
(the `for category_pattern in self.categories` loop). -/
def findCategory (cats : List CatEntry) (line : String) : Option CatEntry :=
  cats.find? (fun c => containsSub c.pattern.toList line.toList)

/-! ### Format A line classifier (my_main_money.py MyMainMoney.process_line) -/

/-- A processed Format A line yields an Expense or an NSF record. -/
inductive ItemA where
  | exp (e : Expense)
  | nsf (n : NSF)
deriving DecidableEq, Repr

/-- The date field of a record. -/
def itemDate : ItemA → PyVal
  | .exp e => e.date
  | .nsf n => n.date

/-- The backfilled year attribute of a record. -/
def itemYear : ItemA → Option Int
  | .exp e => e.year
  | .nsf n => n.year

/-- The Format A year-rollover rules (my_main_money.py lines 61-77): the
candidate date was already parsed with the pre-rollover tracked year; rule 1
(no date yet, candidate month December) decrements the year, rule 2
(previous month December, candidate month January) increments it, and only
then is current_date updated. -/
def applyDateA (st : PState) (nd : MDate) : PState :=
  let st1 :=
    if st.current_date = Option.none ∧ nd.month = 12 then
      { st with current_year := st.current_year - 1 }
    else st
  let st2 :=
    match st1.current_date with
    | some cd =>
      if cd.month = 12 ∧ nd.month = 1 then
        { st1 with current_year := st1.current_year + 1 }
      else st1
    | Option.none => st1
  { st2 with current_date := some nd }

/-- The Format B date handling (visa_avion_unlimited.py lines 126-147).
The source assigns current_date (line 131) BEFORE the two rollover checks
(lines 134 and 142); the embedding preserves that order faithfully, which
makes both checks unreachable. -/
def applyDateB (st : PState) (nd : MDate) : PState :=
  let st0 := { st with current_date := some nd }
  let st1 :=
    if st0.current_date = Option.none ∧ nd.month = 12 then
      { st0 with current_year := st0.current_year - 1 }
    else st0
  let st2 :=
    match st1.current_date with
    | some cd =>
      if cd.month = 12 ∧ nd.month = 1 then
        { st1 with current_year := st1.current_year + 1 }
      else st1
    | Option.none => st1
  st2

/-- my_main_money.py process_line after the date handling: the NSF check,
the virtual-debit header check on the previous line, and the category scan.
The source also computes a stripped fallback display line (lines 125-127)
that is immediately overwritten by the friendly name (line 128); that dead
store is omitted and the friendly name assigned directly. -/
def processLineA2 (cats : List CatEntry) (st : PState) (line previous_line : String) :
    Except String (PState × Option ItemA) :=
  match nsfMatch line with
  | some cents =>
    .ok (st, some (.nsf { date := pyOfOpt st.current_date, amount := cents }))
  | Option.none =>
    let r : Expense := { date := pyOfOpt st.current_date }
    let r :=
      match visaDebitSearch previous_line.toList with
      | some (mode, pid) =>
        let r :=
          if mode = "correction" then { r with reversal := true }
          else if mode = "refund" then { r with reversal := true }
          else r
        { r with visa_debit_id := some pid }
      | Option.none => r
    match findCategory cats line with
    | some c =>
      match dollarSearch line.toList with
      | Option.none => .error ("could not find amount in: " ++ line)
      | some cents =>
        .ok (st, some (.exp { r with
          page := c.page, category := c.category, amount := cents, line := c.friendly }))
    | Option.none => .ok (st, Option.none)

/-- my_main_money.py MyMainMoney.process_line.  An error models an uncaught
ValueError (strptime failure or a matched category line with no amount). -/
def processLineA (cats : List CatEntry) (st : PState) (line previous_line : String) :
    Except String (PState × Option ItemA) :=
  match dateTokenA line with
  | some (ds, m) =>
    match strptimeDM ds m st.current_year with
    | some nd => processLineA2 cats (applyDateA st nd) line previous_line
    | Option.none => .error ("strptime: " ++ line)
  | Option.none => processLineA2 cats st line previous_line

/-! ### Format B line classifier (visa_avion_unlimited.py process_line) -/

/-- visa_avion_unlimited.py VISAAvionUnlimited.process_line: date handling
(via applyDateB) then the category scan.  The source's intermediate
assignment result.line = line[14:] (line 160) is immediately overwritten by
the friendly name (line 161); the dead store is omitted. -/
def processLineB (cats : List CatEntry) (st : PState) (line previous_line : String)
    (ln : Nat) : Except String (PState × Option Expense) :=
  let stD : Except String PState :=
    match dateTokenB line with
    | some (m, ds) =>
      match strptimeDM ds m st.current_year with
      | some nd => .ok (applyDateB st nd)
      | Option.none => .error ("strptime: " ++ line)
    | Option.none => .ok st
  match stD with
  | .error e => .error e
  | .ok st =>
    let r : Expense := { date := pyOfOpt st.current_date }
    match findCategory cats line with
    | some c =>
      .ok (st, some { r with
        page := c.page, category := c.category, line := c.friendly, line_number := ln })
    | Option.none => .ok (st, Option.none)

/-! ### Page scanners -/

/-- Format A header marker (my_main_money.py start_of_items). -/
def startA : String := "Date Description Withdrawals ($) Deposits ($) Balance ($)"

/-- Format B header marker (visa_avion_unlimited.py start_of_items). -/
def startB : String := "TRANSACTION POSTINGACTIVITY DESCRIPTION AMOUNT ($)DATE DATE"

/-- common.py lines 79-84: when the processed record's date is falsy the
scanner backfills the year from the tracked year and stores the (always
empty) local current_date string in the date field. -/
def backfillItem (cy : Int) (it : ItemA) : ItemA :=
  match it with
  | .exp e => if e.date.truthy then it else .exp { e with year := some cy, date := .vstr "" }
  | .nsf n => if n.date.truthy then it else .nsf { n with year := some cy, date := .vstr "" }

/-- common.py lines 85-88: NSF records are always kept; Expense records are
kept only when the display line is nonempty. -/
def pushItem (it : ItemA) (exps : List Expense) (nsfs : List NSF) :
    List Expense × List NSF :=
  match it with
  | .nsf n => (exps, nsfs ++ [n])
  | .exp e => if e.line.length > 0 then (exps ++ [e], nsfs) else (exps, nsfs)

/-- The Format A page scan loop (common.py Parser.process_page_lines):
skip lines until the header marker, then feed each line to process_line,
tracking the previous processed line. -/
def scanA (cats : List CatEntry) (st : PState) (lines : List String) (prev : String)
    (found : Bool) (exps : List Expense) (nsfs : List NSF) :
    Except String (PState × List Expense × List NSF × String) :=
  match lines with
  | [] => .ok (st, exps, nsfs, prev)
  | line :: rest =>
    if line = startA then scanA cats st rest prev true exps nsfs
    else if found = false then scanA cats st rest prev found exps nsfs
    else
      match processLineA cats st line prev with
      | .error e => .error e
      | .ok (st2, it?) =>
        match it? with
        | Option.none => scanA cats st2 rest line true exps nsfs
        | some it =>
          let it := backfillItem st2.current_year it
          match pushItem it exps nsfs with
          | (exps2, nsfs2) => scanA cats st2 rest line true exps2 nsfs2

/-- common.py Parser.process_page_lines entry point. -/
def processPageLinesA (cats : List CatEntry) (st : PState) (lines : List String)
    (prev : String) : Except String (PState × List Expense × List NSF × String) :=
  scanA cats st lines prev false [] []

/-- The Format B amount lookahead (visa_avion_unlimited.py lines 88-105):
scan at most the next two lines for a trailing currency token; returns the
amount in cents and the number of lines consumed.  The error cases model
the uncaught exceptions of the source: dollar_regex.search(None) raises a
TypeError when the iterator is exhausted (lines 91-95), and exhausting the
window raises ValueError (line 105). -/
def findAmount (rest : List String) : Except String (Nat × Nat) :=
  match rest with
  | [] => .error "TypeError"
  | l1 :: r1 =>
    match trailingDollar l1 with
    | some amt => .ok (amt, 1)
    | Option.none =>
      match r1 with
      | [] => .error "TypeError"
      | l2 :: _ =>
        match trailingDollar l2 with
        | some amt => .ok (amt, 2)
        | Option.none => .error "could not find amount"

/-- The Format B page scan loop (visa_avion_unlimited.py
process_page_lines, lines 53-111), as an explicit cursor over the line
list: the current line, the remaining lines, and the line counter.  The
fuel argument only bounds the iteration count; the entry point below always
supplies enough fuel for the loop to run to completion. -/
def scanB (cats : List CatEntry) : Nat → PState → String → List String → Nat → String →
    Bool → List Expense → Except String (PState × List Expense × List NSF × String)
  | 0, _, _, _, _, _, _, _ => .error "fuel exhausted"
  | fuel + 1, st, line, rest, ln, prev, found, exps =>
    if line = startB then
      match rest with
      | [] => .ok (st, exps, [], prev)
      | l :: r => scanB cats fuel st l r (ln + 1) prev true exps
    else if found = false then
      match rest with
      | [] => .ok (st, exps, [], prev)
      | l :: r => scanB cats fuel st l r (ln + 1) prev found exps
    else
      match processLineB cats st line prev ln with
      | .error e => .error e
      | .ok (st2, e?) =>
        match e? with
        | Option.none =>
          match rest with
          | [] => .ok (st2, exps, [], line)
          | l :: r => scanB cats fuel st2 l r (ln + 1) line true exps
        | some e =>
          let e := if e.date.truthy then e else { e with date := .vstr "" }
          if e.line.length > 0 then
            match findAmount rest with
            | .error msg => .error msg
            | .ok (amt, consumed) =>
              let exps2 := exps ++ [{ e with amount := amt }]
              match rest.drop consumed with
              | [] => .ok (st2, exps2, [], line)
              | l :: r => scanB cats fuel st2 l r (ln + consumed + 1) line true exps2
          else
            match rest with
            | [] => .ok (st2, exps, [], line)
            | l :: r => scanB cats fuel st2 l r (ln + 1) line true exps

/-- visa_avion_unlimited.py process_page_lines entry point: the unguarded
initial next() raises StopIteration on an empty line list (line 51), and
the incoming previous-line argument is overwritten with the empty string
(line 52) before the loop starts. -/
def processPageLinesB (cats : List CatEntry) (st : PState) (lines : List String)
    (prev : String) : Except String (PState × List Expense × List NSF × String) :=
  match lines with
  | [] => .error "StopIteration"
  | l :: rest => scanB cats (rest.length + 1) st l rest 1 "" false []

/-! ### The duplicate/correction resolver (main.py filter_visa_debit_corrections) -/

/-- Lookup in the virtual-debit map (a Python dict keyed by correlation id;
keys are inserted at most once, so an association list suffices). -/
def lookupId (vid : String) : List (String × Expense) → Option Expense
  | [] => Option.none
  | (k, e) :: m => if k = vid then some e else lookupId vid m

/-- The resolver loop of main.py lines 279-293.  Python iterates the live
list by index while list.remove mutates it, so the cursor `i` is an index
into the current list; a successful removal of a pair therefore shifts the
two following records under the cursor.  list.remove removes the first
equal element and raises ValueError when the element is absent, in which
case the second removal is skipped (the try block).  The fuel argument only
bounds the iteration count; the entry point below supplies enough. -/
def filterLoop : Nat → List Expense → Nat → List (String × Expense) → List Expense
  | 0, es, _, _ => es
  | fuel + 1, es, i, m =>
    if h : i < es.length then
      let e := es.get ⟨i, h⟩
      match e.visa_debit_id with
      | Option.none => filterLoop fuel es (i + 1) m
      | some vid =>
        match lookupId vid m with
        | some e0 =>
          if es.contains e0 then
            let es1 := es.erase e0
            let es2 := if es1.contains e then es1.erase e else es1
            filterLoop fuel es2 (i + 1) m
          else filterLoop fuel es (i + 1) m
        | Option.none => filterLoop fuel es (i + 1) ((vid, e) :: m)
    else es

/-- main.py filter_visa_debit_corrections. -/
def filter_visa_debit_corrections (es : List Expense) : List Expense :=
  filterLoop (es.length + 1) es 0 []

/-! ### Auxiliary definitions used by the theorems -/

/-- Erase a record's line number (Format B stores the 1-based position of
the matched line in the page; prepended skipped lines shift it). -/
def stripLN (e : Expense) : Expense := { e with line_number := 0 }

/-- A scanner result up to line numbering. -/
def stripRes :
    Except String (PState × List Expense × List NSF × String) →
      Except String (PState × List Expense × List NSF × String)
  | .error e => .error e
  | .ok (st, es, ns, pl) => .ok (st, es.map stripLN, ns, pl)

/-- Re-inject a line number into a classifier result (the only use
process_line makes of its line_number argument). -/
def injLN (ln : Nat) :
    Except String (PState × Option Expense) → Except String (PState × Option Expense)
  | .error e => .error e
  | .ok (st, e?) => .ok (st, e?.map fun e => { e with line_number := ln })

/-- Invariant of the resolver's virtual-debit map: every stored expense
carries the id it is keyed under. -/
def mapOK (m : List (String × Expense)) : Prop :=
  ∀ p ∈ m, p.2.visa_debit_id = some p.1

/-- Concrete resolver inputs: two original/correction pairs. -/
def c3A : Expense := { date := .vnone, amount := 100, visa_debit_id := some "x" }

/-- Correction paired with c3A. -/
def c3B : Expense := { date := .vnone, amount := 200, visa_debit_id := some "x", reversal := true }

/-- Second original, id y. -/
def c3C : Expense := { date := .vnone, amount := 300, visa_debit_id := some "y" }

/-- Correction paired with c3C. -/
def c3D : Expense := { date := .vnone, amount := 400, visa_debit_id := some "y", reversal := true }

/-- Concrete resolver input for the round-trip claim: pair at id w
followed by a purchase/correction pair at id x. -/
def c4P1 : Expense := { date := .vnone, amount := 10, visa_debit_id := some "w" }

/-- Correction paired with c4P1. -/
def c4C1 : Expense := { date := .vnone, amount := 11, visa_debit_id := some "w", reversal := true }

/-- Purchase at id x, later corrected by c4C2. -/
def c4P2 : Expense := { date := .vnone, amount := 12, visa_debit_id := some "x" }

/-- Correction of c4P2 (same id x, later in the list). -/
def c4C2 : Expense := { date := .vnone, amount := 13, visa_debit_id := some "x", reversal := true }

/-- Category configuration for the Format B lookahead scenario. -/
def cats7 : List CatEntry := [⟨"SHOP", "Page", "Cat", "Shop"⟩]

/-- The record produced by the Format B lookahead scenario. -/
def e7 : Expense :=
  { date := .vdate ⟨2023, 1, 5⟩, page := "Page", category := "Cat",
    amount := 1234, line_number := 2, line := "Shop" }

/-- Category configuration for the Format B missing-amount scenario. -/
def cats6 : List CatEntry := [⟨"SHOP", "P", "C", "Shop"⟩]

/-- The pending expense of the Format B missing-amount scenario. -/
def e6 : Expense :=
  { date := .vdate ⟨2023, 1, 5⟩, page := "P", category := "C",
    line := "Shop", line_number := 2 }

/-- The NSF record produced while no date has been seen. -/
def n10 : NSF := { date := .vnone, amount := 4500 }

/-! ### Claims -/

/-- Claim C1: the claim states that in BOTH formats the tracked year
decrements exactly on a pre-first-date December line and increments exactly
on a December-to-January transition.  This holds for Format A (second
conjunct characterizes applyDateA exactly as claimed), but Format B assigns
current_date before its rollover checks, so its tracked year NEVER changes
(first conjunct); in particular a December-to-January transition does not
increment it (third conjunct), refuting the claim for Format B. -/
theorem c1_year_rollover_rules :
    (∀ (st : PState) (nd : MDate), (applyDateB st nd).current_year = st.current_year) ∧
    (∀ (st : PState) (nd : MDate), (applyDateA st nd).current_year =
      match st.current_date with
      | Option.none =>
        if nd.month = 12 then st.current_year - 1 else st.current_year
      | some cd =>
        if cd.month = 12 ∧ nd.month = 1 then st.current_year + 1 else st.current_year) ∧
    (applyDateB ⟨some ⟨2023, 12, 15⟩, 2023⟩ ⟨2023, 1, 5⟩).current_year ≠ 2023 + 1 := by
  refine ⟨?_, ?_, by decide⟩
  · intro st nd
    simp [applyDateB]
    split
    · next h => omega
    · rfl
  · intro st nd
    cases hcd : st.current_date with
    | none =>
      by_cases hm : nd.month = 12
      · simp [applyDateA, hcd, hm]
      · simp [applyDateA, hcd, hm]
    | some cd =>
      by_cases hm : cd.month = 12 ∧ nd.month = 1
      · simp [applyDateA, hcd, hm]
      · simp [applyDateA, hcd, hm]

/-- Claim C2: for a statement starting 2023-01-05, the first dated line
"28 Dec" does set the tracked year to 2022, but the stored current date is
2023-12-28, because the source parses the candidate date with the
pre-decrement year (my_main_money.py line 56 runs before line 67).  The
claim's asserted record date 2022-12-28 is therefore not produced. -/
theorem c2_december_start :
    processLineA [] ⟨Option.none, 2023⟩ "28 Dec" "" =
      .ok (⟨some ⟨2023, 12, 28⟩, 2022⟩, Option.none) ∧
    (⟨some ⟨2023, 12, 28⟩, 2022⟩ : PState).current_year = 2022 ∧
    (⟨some ⟨2023, 12, 28⟩, 2022⟩ : PState).current_date ≠ some ⟨2022, 12, 28⟩ := by
  exact ⟨rfl, rfl, by decide⟩

/-- Claim C3: the resolver is NOT idempotent.  On the input
[x-purchase, x-correction, y-purchase, y-correction] the first pass removes
the x pair, which shifts the y records under the live iteration index so
they are skipped; the second pass then removes both remaining records. -/
theorem c3_not_idempotent :
    filter_visa_debit_corrections [c3A, c3B, c3C, c3D] = [c3C, c3D] ∧
    filter_visa_debit_corrections (filter_visa_debit_corrections [c3A, c3B, c3C, c3D]) = [] ∧
    [c3C, c3D] ≠ ([] : List Expense) := by
  exact ⟨rfl, rfl, by decide⟩

/-- Claim C4: a purchase/correction pair is NOT always removed: on
[w-purchase, w-correction, x-purchase, x-correction] the removal of the w
pair makes the live iterator skip the x records, so both survive the
resolver even though the x purchase is followed later by an x correction. -/
theorem c4_pair_not_removed :
    filter_visa_debit_corrections [c4P1, c4C1, c4P2, c4C2] = [c4P2, c4C2] ∧
    c4P2 ∈ filter_visa_debit_corrections [c4P1, c4C1, c4P2, c4C2] ∧
    c4C2 ∈ filter_visa_debit_corrections [c4P1, c4C1, c4P2, c4C2] ∧
    c4P2.reversal = false ∧ c4C2.reversal = true := by
  refine ⟨rfl, ?_, ?_, rfl, rfl⟩ <;> decide

/-- Claim C5 (counterexample): a Format B page with no header marker does
NOT pass the incoming previous-line value through: the source overwrites it
with the empty string on entry (visa_avion_unlimited.py line 52). -/
theorem c5_prev_line_clobbered :
    processPageLinesB [] ⟨Option.none, 2023⟩ ["hello"] "foo" =
      .ok (⟨Option.none, 2023⟩, [], [], "") ∧ ("" : String) ≠ "foo" := by
  exact ⟨rfl, by decide⟩

/-- Claim C7: Format B lookahead scenario.  A category-matched line with no
inline amount followed by two lines of which only the second carries a
trailing "$12.34": the lookahead returns amount 12.34 (1234 cents) after
consuming exactly 2 lines, and the full page scan produces exactly one
expense with amount 1234 — the first lookahead line, although it matches
the category pattern itself, is consumed and not reprocessed. -/
theorem c7_lookahead_scenario :
    findAmount ["SHOP EXTRA", "STUFF $12.34"] = .ok (1234, 2) ∧
    processPageLinesB cats7 ⟨Option.none, 2023⟩
        [startB, "JAN 5 SHOP THING", "SHOP EXTRA", "STUFF $12.34"] "p" =
      .ok (⟨some ⟨2023, 1, 5⟩, 2023⟩, [e7], [], "JAN 5 SHOP THING") ∧
    containsSub "SHOP".toList "SHOP EXTRA".toList = true := by
  exact ⟨rfl, rfl, rfl⟩

/-- Lines that never equal the Format A header marker are skipped without
touching state, records, or the previous-line value. -/
theorem scanA_skip_until (cats : List CatEntry) (st : PState) :
    ∀ (pre rest : List String) (prev : String) (exps : List Expense) (nsfs : List NSF),
      startA ∉ pre →
      scanA cats st (pre ++ rest) prev false exps nsfs =
        scanA cats st rest prev false exps nsfs := by
  intro pre
  induction pre with
  | nil => intro rest prev exps nsfs _; rfl
  | cons p pre ih =>
    intro rest prev exps nsfs hmem
    have hp : ¬ p = startA := fun h => hmem (by simp [h])
    have hrec : startA ∉ pre := fun h => hmem (by simp [h])
    simp only [List.cons_append, scanA, if_neg hp]
    exact ih rest prev exps nsfs hrec

/-- A Format B scan with the header not yet found skips every line that is
not the marker, returning the accumulators untouched. -/
theorem scanB_skip (cats : List CatEntry) (st : PState) (prev : String)
    (exps : List Expense) :
    ∀ (ls : List String) (l : String) (fuel ln : Nat),
      startB ∉ (l :: ls) → ls.length + 1 ≤ fuel →
      scanB cats fuel st l ls ln prev false exps = .ok (st, exps, [], prev) := by
  intro ls
  induction ls with
  | nil =>
    intro l fuel ln hmem hfuel
    have hl : ¬ l = startB := fun h => hmem (by simp [h])
    cases fuel with
    | zero => omega
    | succ f => simp [scanB, hl]
  | cons l2 r ih =>
    intro l fuel ln hmem hfuel
    have hl : ¬ l = startB := fun h => hmem (by simp [h])
    have hrec : startB ∉ (l2 :: r) := fun h => hmem (List.mem_cons_of_mem _ h)
    cases fuel with
    | zero => simp at hfuel
    | succ f =>
      simp only [scanB, if_neg hl]
      exact ih l2 f (ln + 1) hrec (by simp at hfuel ⊢; omega)

/-- Claim C5 (amended): a page whose lines never contain the header marker
yields no records in either format and leaves the parser state unchanged;
Format A additionally returns the incoming previous-line value unchanged,
while Format B returns the empty string regardless of the incoming value
(it clobbers the argument on entry) and raises StopIteration on an empty
line list. -/
theorem c5_no_header_no_records :
    (∀ (cats : List CatEntry) (st : PState) (lines : List String) (prev : String),
      startA ∉ lines →
      processPageLinesA cats st lines prev = .ok (st, [], [], prev)) ∧
    (∀ (cats : List CatEntry) (st : PState) (l : String) (ls : List String) (prev : String),
      startB ∉ (l :: ls) →
      processPageLinesB cats st (l :: ls) prev = .ok (st, [], [], "")) ∧
    (∀ (cats : List CatEntry) (st : PState) (prev : String),
      processPageLinesB cats st [] prev = .error "StopIteration") := by
  refine ⟨?_, ?_, fun cats st prev => rfl⟩
  · intro cats st lines prev hmem
    have := scanA_skip_until cats st lines [] prev [] [] hmem
    simp only [List.append_nil] at this
    simpa [processPageLinesA] using this
  · intro cats st l ls prev hmem
    simp only [processPageLinesB]
    exact scanB_skip cats st "" [] ls l (ls.length + 1) 1 hmem (by omega)

/-- Claim C5 witness. -/
theorem c5_no_header_no_records_witness :
    processPageLinesA [] ⟨Option.none, 2000⟩ ["a"] "p" =
      .ok (⟨Option.none, 2000⟩, [], [], "p") ∧
    processPageLinesB [] ⟨Option.none, 2000⟩ ["b"] "p" =
      .ok (⟨Option.none, 2000⟩, [], [], "") ∧
    processPageLinesB [] ⟨Option.none, 2000⟩ [] "p" = .error "StopIteration" :=
  ⟨c5_no_header_no_records.1 [] ⟨Option.none, 2000⟩ ["a"] "p" (by decide),
   c5_no_header_no_records.2.1 [] ⟨Option.none, 2000⟩ "b" [] "p" (by decide),
   c5_no_header_no_records.2.2 [] ⟨Option.none, 2000⟩ "p"⟩

/-- Erasing a record that carries a correlation id does not disturb the
records that have none. -/
theorem erase_keeps_unidentified (a : Expense) (v : String)
    (ha : a.visa_debit_id = some v) :
    ∀ es : List Expense,
      (es.erase a).filter (fun x => x.visa_debit_id.isNone) =
        es.filter (fun x => x.visa_debit_id.isNone) := by
  intro es
  induction es with
  | nil => rfl
  | cons x t ih =>
    rw [List.erase_cons]
    by_cases hx : x = a
    · subst hx
      simp [List.filter_cons, ha]
    · have hb : (x == a) = false := by simp [hx]
      rw [hb]
      simp only [Bool.false_eq_true, if_false, List.filter_cons, ih]

/-- A successful map lookup returns a stored pair. -/
theorem lookupId_mem (vid : String) (e0 : Expense) :
    ∀ m : List (String × Expense), lookupId vid m = some e0 → (vid, e0) ∈ m := by
  intro m
  induction m with
  | nil => intro h; exact absurd h (by simp [lookupId])
  | cons p t ih =>
    intro h
    simp only [lookupId] at h
    by_cases hk : p.1 = vid
    · rw [if_pos hk] at h
      cases h
      subst hk
      exact List.mem_cons_self p t
    · rw [if_neg hk] at h
      exact List.mem_cons_of_mem _ (ih h)

/-- The resolver loop never removes a record without a correlation id:
under the map invariant, the unidentified sublist is preserved exactly. -/
theorem filterLoop_frame :
    ∀ (fuel : Nat) (es : List Expense) (i : Nat) (m : List (String × Expense)),
      mapOK m →
      (filterLoop fuel es i m).filter (fun x => x.visa_debit_id.isNone) =
        es.filter (fun x => x.visa_debit_id.isNone) := by
  intro fuel
  induction fuel with
  | zero => intro es i m _; rfl
  | succ f ih =>
    intro es i m hm
    simp only [filterLoop]
    split
    · rename_i h
      split
      · exact ih es (i + 1) m hm
      · rename_i vid hid
        split
        · rename_i e0 hl
          have he0 : e0.visa_debit_id = some vid :=
            hm (vid, e0) (lookupId_mem vid e0 m hl)
          split
          · split
            · rw [ih _ (i + 1) m hm, erase_keeps_unidentified _ vid hid,
                erase_keeps_unidentified _ vid he0]
            · rw [ih _ (i + 1) m hm, erase_keeps_unidentified _ vid he0]
          · exact ih es (i + 1) m hm
        · rename_i hl
          have hm2 : mapOK ((vid, es.get ⟨i, h⟩) :: m) := by
            intro p hp
            cases hp with
            | head => exact hid
            | tail _ hp2 => exact hm p hp2
          exact ih es (i + 1) ((vid, es.get ⟨i, h⟩) :: m) hm2
    · rfl

/-- Claim C8: the resolver removes only records carrying a visa_debit_id;
every record whose visa_debit_id is None appears in the output with all of
its fields unmodified (the unidentified sublist, in order, is exactly
preserved). -/
theorem c8_unidentified_untouched (es : List Expense) :
    (filter_visa_debit_corrections es).filter (fun x => x.visa_debit_id.isNone) =
      es.filter (fun x => x.visa_debit_id.isNone) :=
  filterLoop_frame (es.length + 1) es 0 [] (fun p hp => absurd hp (List.not_mem_nil p))

/-- process_line uses its line_number argument only to stamp the produced
expense. -/
theorem processLineB_ln (cats : List CatEntry) (st : PState) (line prev : String)
    (ln : Nat) :
    processLineB cats st line prev ln = injLN ln (processLineB cats st line prev 0) := by
  simp only [processLineB]
  cases hd : dateTokenB line with
  | none =>
    cases hc : findCategory cats line with
    | none => simp [injLN]
    | some c => simp [injLN]
  | some p =>
    obtain ⟨m, ds⟩ := p
    cases hs : strptimeDM ds m st.current_year with
    | none => simp [injLN, hs]
    | some nd =>
      cases hc : findCategory cats line with
      | none => simp [injLN, hs, hc]
      | some c => simp [injLN, hs, hc]

/-- The Format B scan result is independent of the starting line counter
and of sufficient fuel, up to the line_number fields of the produced
expenses. -/
theorem scanB_ln_irrel (cats : List CatEntry) :
    ∀ (fuel1 fuel2 : Nat) (st : PState) (line : String) (rest : List String)
      (ln1 ln2 : Nat) (prev : String) (found : Bool) (exps1 exps2 : List Expense),
      rest.length + 1 ≤ fuel1 → rest.length + 1 ≤ fuel2 →
      exps1.map stripLN = exps2.map stripLN →
      stripRes (scanB cats fuel1 st line rest ln1 prev found exps1) =
        stripRes (scanB cats fuel2 st line rest ln2 prev found exps2) := by
  intro fuel1
  induction fuel1 with
  | zero => intro fuel2 st line rest ln1 ln2 prev found exps1 exps2 h1 h2 hx; omega
  | succ f1 ih =>
    intro fuel2 st line rest ln1 ln2 prev found exps1 exps2 h1 h2 hx
    cases fuel2 with
    | zero => omega
    | succ f2 =>
      simp only [scanB]
      by_cases hs : line = startB
      · simp only [if_pos hs]
        cases rest with
        | nil => simp [stripRes, hx]
        | cons l r =>
          exact ih f2 st l r (ln1 + 1) (ln2 + 1) prev true exps1 exps2
            (by simp only [List.length_cons] at h1; omega)
            (by simp only [List.length_cons] at h2; omega) hx
      · simp only [if_neg hs]
        by_cases hf : found = false
        · simp only [if_pos hf]
          cases rest with
          | nil => simp [stripRes, hx]
          | cons l r =>
            exact ih f2 st l r (ln1 + 1) (ln2 + 1) prev found exps1 exps2
              (by simp only [List.length_cons] at h1; omega)
              (by simp only [List.length_cons] at h2; omega) hx
        · simp only [if_neg hf]
          rw [processLineB_ln cats st line prev ln1, processLineB_ln cats st line prev ln2]
          cases hp : processLineB cats st line prev 0 with
          | error e => simp [injLN, stripRes]
          | ok p =>
            obtain ⟨st2, e?⟩ := p
            cases e? with
            | none =>
              simp only [injLN, Option.map]
              cases rest with
              | nil => simp [stripRes, hx]
              | cons l r =>
                exact ih f2 st2 l r (ln1 + 1) (ln2 + 1) line true exps1 exps2
                  (by simp only [List.length_cons] at h1; omega)
                  (by simp only [List.length_cons] at h2; omega) hx
            | some e0 =>
              simp only [injLN, Option.map]
              by_cases ht : e0.date.truthy
              · simp only [ht, if_pos]
                by_cases hl : e0.line.length > 0
                · simp only [if_pos hl]
                  cases hf2 : findAmount rest with
                  | error msg => simp [stripRes]
                  | ok q =>
                    obtain ⟨amt, consumed⟩ := q
                    cases hdrp : rest.drop consumed with
                    | nil => simp [hdrp, stripRes, List.map_append, hx, stripLN]
                    | cons l r =>
                      have hdl := congrArg List.length hdrp
                      rw [List.length_drop] at hdl
                      simp only [List.length_cons] at hdl
                      simp only [hdrp]
                      refine ih f2 st2 l r (ln1 + consumed + 1) (ln2 + consumed + 1) line true
                        _ _ (by omega) (by omega) ?_
                      simp [List.map_append, hx, stripLN]
                · simp only [if_neg hl]
                  cases rest with
                  | nil => simp [stripRes, hx]
                  | cons l r =>
                    exact ih f2 st2 l r (ln1 + 1) (ln2 + 1) line true exps1 exps2
                      (by simp only [List.length_cons] at h1; omega)
                      (by simp only [List.length_cons] at h2; omega) hx
              · simp only [ht, Bool.false_eq_true, if_false]
                by_cases hl : e0.line.length > 0
                · simp only [if_pos hl]
                  cases hf2 : findAmount rest with
                  | error msg => simp [stripRes]
                  | ok q =>
                    obtain ⟨amt, consumed⟩ := q
                    cases hdrp : rest.drop consumed with
                    | nil => simp [hdrp, stripRes, List.map_append, hx, stripLN]
                    | cons l r =>
                      have hdl := congrArg List.length hdrp
                      rw [List.length_drop] at hdl
                      simp only [List.length_cons] at hdl
                      simp only [hdrp]
                      refine ih f2 st2 l r (ln1 + consumed + 1) (ln2 + consumed + 1) line true
                        _ _ (by omega) (by omega) ?_
                      simp [List.map_append, hx, stripLN]
                · simp only [if_neg hl]
                  cases rest with
                  | nil => simp [stripRes, hx]
                  | cons l r =>
                    exact ih f2 st2 l r (ln1 + 1) (ln2 + 1) line true exps1 exps2
                      (by simp only [List.length_cons] at h1; omega)
                      (by simp only [List.length_cons] at h2; omega) hx

/-- Skipping non-marker lines before the Format B header: the scan of
pre ++ marker :: post agrees (up to line numbering) with the scan of
marker :: post started fresh. -/
theorem scanB_skip_until (cats : List CatEntry) (st : PState) (post : List String) :
    ∀ (pre : List String) (l : String) (ln f : Nat),
      startB ∉ (l :: pre) → (pre ++ startB :: post).length + 1 ≤ f + 1 →
      stripRes (scanB cats (f + 1) st l (pre ++ startB :: post) ln "" false []) =
        stripRes (scanB cats (post.length + 1) st startB post 1 "" false []) := by
  intro pre
  induction pre with
  | nil =>
    intro l ln f hmem hf
    have hl : ¬ l = startB := fun h => hmem (by simp [h])
    simp only [List.nil_append] at hf ⊢
    simp only [scanB, if_neg hl]
    exact scanB_ln_irrel cats f (post.length + 1) st startB post (ln + 1) 1 "" false [] []
      (by simp only [List.length_cons] at hf; omega) (by omega) rfl
  | cons p pre2 ih =>
    intro l ln f hmem hf
    have hl : ¬ l = startB := fun h => hmem (by simp [h])
    have hmem2 : startB ∉ (p :: pre2) := fun h => hmem (List.mem_cons_of_mem _ h)
    simp only [List.cons_append] at hf ⊢
    simp only [scanB, if_neg hl]
    cases f with
    | zero => simp only [List.length_cons, List.length_append] at hf; omega
    | succ f2 =>
      exact ih p (ln + 1) f2 hmem2
        (by simp only [List.length_cons, List.length_append] at hf ⊢; omega)

/-- Claim C9: lines before the first occurrence of the header marker
produce no Expense or NSF record.  For Format A the page result is exactly
the result of scanning from the marker; for Format B the same holds up to
the line_number bookkeeping field (prepended lines shift the counter but
contribute no records). -/
theorem c9_pre_marker_lines_inert :
    (∀ (cats : List CatEntry) (st : PState) (pre post : List String) (prev : String),
      startA ∉ pre →
      processPageLinesA cats st (pre ++ startA :: post) prev =
        processPageLinesA cats st (startA :: post) prev) ∧
    (∀ (cats : List CatEntry) (st : PState) (pre post : List String) (prev : String),
      startB ∉ pre →
      stripRes (processPageLinesB cats st (pre ++ startB :: post) prev) =
        stripRes (processPageLinesB cats st (startB :: post) prev)) := by
  constructor
  · intro cats st pre post prev hmem
    simp only [processPageLinesA]
    exact scanA_skip_until cats st pre (startA :: post) prev [] [] hmem
  · intro cats st pre post prev hmem
    cases pre with
    | nil => rfl
    | cons p pre2 =>
      simp only [List.cons_append, processPageLinesB]
      exact scanB_skip_until cats st post pre2 p 1 (pre2 ++ startB :: post).length hmem
        (by omega)

/-- Claim C9 witness. -/
theorem c9_pre_marker_lines_inert_witness :
    processPageLinesA [] ⟨Option.none, 2000⟩ (["x"] ++ startA :: ["y"]) "p" =
      processPageLinesA [] ⟨Option.none, 2000⟩ (startA :: ["y"]) "p" ∧
    stripRes (processPageLinesB [] ⟨Option.none, 2000⟩ (["x"] ++ startB :: ["y"]) "p") =
      stripRes (processPageLinesB [] ⟨Option.none, 2000⟩ (startB :: ["y"]) "p") :=
  ⟨c9_pre_marker_lines_inert.1 [] ⟨Option.none, 2000⟩ ["x"] ["y"] "p" (by decide),
   c9_pre_marker_lines_inert.2 [] ⟨Option.none, 2000⟩ ["x"] ["y"] "p" (by decide)⟩

/-- Claim C6: the Format B lookahead raises exactly when no line in the
up-to-2-line window carries a trailing currency token (first conjunct:
the error condition is equivalent to every line of the window lacking a
trailing dollar amount — running out of lines included), and the page scan
propagates that error instead of silently dropping the matched transaction
(second conjunct). -/
theorem c6_lookahead_fatal :
    (∀ rest : List String,
      (∃ msg, findAmount rest = .error msg) ↔
        ∀ l ∈ rest.take 2, trailingDollar l = Option.none) ∧
    (∀ (cats : List CatEntry) (fuel : Nat) (st : PState) (line : String)
      (rest : List String) (ln : Nat) (prev : String) (exps : List Expense)
      (st2 : PState) (e : Expense) (msg : String),
      line ≠ startB →
      processLineB cats st line prev ln = .ok (st2, some e) →
      e.line.length > 0 →
      findAmount rest = .error msg →
      scanB cats (fuel + 1) st line rest ln prev true exps = .error msg) := by
  constructor
  · intro rest
    cases rest with
    | nil => simp [findAmount]
    | cons l1 r1 =>
      cases h1 : trailingDollar l1 with
      | some a => simp [findAmount, h1]
      | none =>
        cases r1 with
        | nil => simp [findAmount, h1]
        | cons l2 r2 =>
          cases h2 : trailingDollar l2 with
          | some a => simp [findAmount, h1, h2]
          | none => simp [findAmount, h1, h2]
  · intro cats fuel st line rest ln prev exps st2 e msg hne hp hlen hfa
    simp only [scanB, if_neg hne, hp]
    by_cases ht : e.date.truthy <;> simp [ht, hlen, hfa]

/-- Claim C6 witness. -/
theorem c6_lookahead_fatal_witness :
    scanB cats6 5 ⟨Option.none, 2023⟩ "JAN 5 SHOP" ["aaa", "bbb"] 2 "" true [] =
      .error "could not find amount" ∧
    (∃ msg, findAmount ["aaa", "bbb"] = .error msg) :=
  ⟨c6_lookahead_fatal.2 cats6 4 ⟨Option.none, 2023⟩ "JAN 5 SHOP" ["aaa", "bbb"] 2 ""
      [] ⟨some ⟨2023, 1, 5⟩, 2023⟩ e6 "could not find amount"
      (by decide) rfl (by decide) rfl,
   (c6_lookahead_fatal.1 ["aaa", "bbb"]).mpr (by decide)⟩

/-- The Format A classifier after the date handling leaves the parser state
unchanged, and any record it produces is dated with the (possibly absent)
current date. -/
theorem processLineA2_result (cats : List CatEntry) (st : PState) (line prev : String) :
    ∀ (st2 : PState) (it : ItemA),
      processLineA2 cats st line prev = .ok (st2, some it) →
      st2 = st ∧ itemDate it = pyOfOpt st.current_date := by
  intro st2 it h
  simp only [processLineA2] at h
  repeat' split at h
  all_goals simp_all [itemDate]
  all_goals obtain ⟨h1, h2⟩ := h
  all_goals subst h1
  all_goals subst h2
  all_goals rfl

/-- Claim C10: if a line after the Format A header produces a record
(Expense or NSF) while the parser's current date is still unset and the
line itself carries no date token, the scanner returns normally and the
record's date field is the empty string with the year backfilled from the
tracked year — not a calendar date and not an error. -/
theorem c10_undated_record_empty_date :
    ∀ (cats : List CatEntry) (st : PState) (line prev : String) (st2 : PState)
      (item : ItemA),
      st.current_date = Option.none →
      dateTokenA line = Option.none →
      line ≠ startA →
      processLineA cats st line prev = .ok (st2, some item) →
      processPageLinesA cats st [startA, line] prev =
        .ok (st, (pushItem (backfillItem st.current_year item) [] []).1,
          (pushItem (backfillItem st.current_year item) [] []).2, line) ∧
      itemDate (backfillItem st.current_year item) = PyVal.vstr "" ∧
      itemYear (backfillItem st.current_year item) = some st.current_year := by
  intro cats st line prev st2 item hcd hdt hne hpl
  have hpl2 : processLineA2 cats st line prev = .ok (st2, some item) := by
    simpa [processLineA, hdt] using hpl
  obtain ⟨hst, hdate⟩ := processLineA2_result cats st line prev st2 item hpl2
  subst hst
  have hdate2 : itemDate item = PyVal.vnone := by rw [hdate, hcd]; rfl
  have hback : itemDate (backfillItem st2.current_year item) = PyVal.vstr "" ∧
      itemYear (backfillItem st2.current_year item) = some st2.current_year := by
    cases item with
    | exp e =>
      have he : e.date = PyVal.vnone := hdate2
      simp [backfillItem, itemDate, itemYear, he, PyVal.truthy]
    | nsf n =>
      have hn : n.date = PyVal.vnone := hdate2
      simp [backfillItem, itemDate, itemYear, hn, PyVal.truthy]
  refine ⟨?_, hback.1, hback.2⟩
  simp only [processPageLinesA, scanA, if_pos, if_neg hne, hpl]
  rfl

/-- Claim C10 witness: an NSF line processed before any date has been seen. -/
theorem c10_undated_record_empty_date_witness :
    processPageLinesA [] ⟨Option.none, 2023⟩ [startA, "Item returned NSF 45.00"] "" =
      .ok (⟨Option.none, 2023⟩,
        (pushItem (backfillItem 2023 (.nsf n10)) [] []).1,
        (pushItem (backfillItem 2023 (.nsf n10)) [] []).2, "Item returned NSF 45.00") ∧
    itemDate (backfillItem 2023 (.nsf n10)) = PyVal.vstr "" ∧
    itemYear (backfillItem 2023 (.nsf n10)) = some 2023 :=
  c10_undated_record_empty_date [] ⟨Option.none, 2023⟩ "Item returned NSF 45.00" ""
    ⟨Option.none, 2023⟩ (.nsf n10) rfl rfl (by decide) rfl
